import Mathlib

/-!
# Verification of the focus-traversal core (`src/examples/gui/platform/src/focus.rs`)

Shallow embedding of the `Focus` tracker: `Focus::advance`,
`Focus::next_focusable_sibling`, `Focus::focused_elem` and `Focus::default`.

The element tree type `RocElem` and its `is_focusable` query live in `roc.rs`,
which is not part of the sources under verification; they are modelled from the
specification (leaf kinds `text` — not focusable — and `button` — focusable;
container kinds `row` and `col` holding an ordered child sequence, never
themselves focusable).

Raw pointers (`*const RocElem`) are modelled as `Option RocElem`: `none` is the
null pointer, `some e` a pointer to the element `e` (elements are identified by
their structural value).  Rust panics — an out-of-range slice
`children[0..focus_index]`, dereferencing a null ancestor pointer, and the
`debug_assert!` on the returned pointer — are made explicit with
`Except PanicKind`: a `.error` result means the Rust call panics instead of
returning.
-/

/-- Modelled from the spec: the element tree of `roc.rs` (not under `src/`).
Leaf kinds: `text` (a string, not focusable) and `button` (focusable, holds a
single child element; its `ButtonStyles` argument is irrelevant to focus and is
omitted).  Container kinds: `row` and `col`, each holding an ordered sequence
of children. -/
inductive RocElem : Type where
  | text : String → RocElem
  | button : RocElem → RocElem
  | row : List RocElem → RocElem
  | col : List RocElem → RocElem

/-- Modelled from the spec: the tag enumeration `RocElemTag` of `roc.rs`. -/
inductive RocElemTag : Type where
  | Button
  | Text
  | Row
  | Col
deriving DecidableEq

/-- Modelled from the spec: the tag query of `roc.rs`. -/
def RocElem.tag : RocElem → RocElemTag
  | .text _ => .Text
  | .button _ => .Button
  | .row _ => .Row
  | .col _ => .Col

/-- Modelled from the spec: `RocElem::is_focusable` of `roc.rs`.
"Focusability is a static property of the element's kind": buttons are
focusable, text and containers are not. -/
def RocElem.is_focusable (elem : RocElem) : Bool :=
  match elem.tag with
  | .Button => true
  | .Text => false
  | .Row => false
  | .Col => false

/-- A `*const RocElem`: `none` is the null pointer. -/
abbrev Ptr := Option RocElem

/-- The ways a call into the focus core can panic instead of returning:
`sliceOOB` — the slice `children[0..focus_index]` with `focus_index` out of
range; `nullDeref` — `unsafe \x7b &*ancestor_ptr \x7d` on a null pointer;
`assertNull` — the `debug_assert!(!new_ptr.is_null())` in `advance` fires. -/
inductive PanicKind : Type where
  | sliceOOB
  | nullDeref
  | assertNull
deriving DecidableEq

/-- The `Focus` struct (focus.rs lines 3-7): the focused pointer and the
`Vec<(*const RocElem, usize)>` of ancestors, kept in `Vec` order (the innermost
ancestor is the last element, as `Vec::pop` removes from the back). -/
structure Focus : Type where
  focused : Ptr
  focused_ancestors : List (Ptr × Nat)

/-- `Focus::default` (focus.rs lines 9-16): null focus, empty ancestor vector. -/
def Focus.default : Focus :=
  { focused := none, focused_ancestors := [] }

/-- `Focus::focused_elem` (focus.rs lines 19-21). -/
def Focus.focused_elem (self : Focus) : Ptr :=
  self.focused

/-- `sizeOf` of a prefix of a list is bounded by `sizeOf` of the list
(termination measure for the slice taken in `next_focusable_sibling`). -/
theorem sizeOf_take_le (cs : List RocElem) (n : Nat) :
    sizeOf (cs.take n) ≤ sizeOf cs := by
  induction cs generalizing n with
  | nil => simp [List.take]
  | cons c rest ih =>
    cases n with
    | zero => simp [List.take]; omega
    | succ m =>
      simp only [List.take, List.cons.sizeOf_spec]
      have := ih m
      omega

mutual

/-- `Focus::next_focusable_sibling` (focus.rs lines 83-108).
`Button | Text => None`; `Row | Col` iterates the children — restricted to the
slice `children[0..focus_index]` when an index is supplied, which panics when
`focus_index` exceeds the child count — recursing into each child with no index.
The returned pair is a found pointer together with an ancestor chain. -/
def next_focusable_sibling (elem : RocElem) (ancestor : Option RocElem)
    (opt_index : Option Nat) : Except PanicKind (Option (Ptr × List (Ptr × Nat))) :=
  match elem with
  | .button _ => .ok none
  | .text _ => .ok none
  | .row children =>
    match opt_index with
    | some focus_index =>
      if focus_index ≤ children.length then
        searchChildren (children.take focus_index) ancestor
      else
        .error .sliceOOB
    | none => searchChildren children ancestor
  | .col children =>
    match opt_index with
    | some focus_index =>
      if focus_index ≤ children.length then
        searchChildren (children.take focus_index) ancestor
      else
        .error .sliceOOB
    | none => searchChildren children ancestor
termination_by sizeOf elem
decreasing_by
  all_goals simp only [RocElem.row.sizeOf_spec, RocElem.col.sizeOf_spec]
  · have := sizeOf_take_le children focus_index; omega
  · omega
  · have := sizeOf_take_le children focus_index; omega
  · omega

/-- The `for child in iter` loop of `next_focusable_sibling` (focus.rs lines
99-103): return the first match found, short-circuiting; `None` when the
iterator is exhausted. -/
def searchChildren (children : List RocElem) (ancestor : Option RocElem) :
    Except PanicKind (Option (Ptr × List (Ptr × Nat))) :=
  match children with
  | [] => .ok none
  | child :: rest =>
    match next_focusable_sibling child ancestor none with
    | .error k => .error k
    | .ok (some focused) => .ok (some focused)
    | .ok none => searchChildren rest ancestor
termination_by sizeOf children
decreasing_by
  all_goals simp only [List.cons.sizeOf_spec]
  · omega
  · omega

end

/-- The `while let Some((ancestor_ptr, index)) = self.focused_ancestors.pop()`
loop of `advance` (focus.rs lines 44-77).  `Vec::pop` removes the LAST element,
so the loop consumes ancestors from the innermost outward; we therefore recurse
over the REVERSED ancestor vector (`rev` lists the ancestors in pop order, and
the not-yet-popped remainder in `Vec` order is `rest.reverse`).  On a match the
code checks `debug_assert!(!new_ptr.is_null())`, sets `self.focused = new_ptr`
and extends the remaining vector with the new ancestor chain; when the loop
exhausts the ancestors, `self.focused` is left unchanged and the vector has
been fully popped. -/
def advanceLoop (focused : RocElem) : List (Ptr × Nat) → Except PanicKind Focus
  | [] => .ok { focused := some focused, focused_ancestors := [] }
  | (ancestor_ptr, index) :: rest =>
    match ancestor_ptr with
    | none => .error .nullDeref
    | some ancestor =>
      match next_focusable_sibling focused (some ancestor) (some index) with
      | .error k => .error k
      | .ok (some (new_ptr, new_ancestors)) =>
        match new_ptr with
        | none => .error .assertNull
        | some _ =>
          .ok { focused := new_ptr, focused_ancestors := rest.reverse ++ new_ancestors }
      | .ok none => advanceLoop focused rest

/-- `Focus::advance` (focus.rs lines 24-78).  With null focus: focus the root
if it is focusable, otherwise take whatever `next_focusable_sibling` finds from
the root, otherwise leave the state untouched.  With a focus present: run the
ancestor-popping loop. -/
def Focus.advance (self : Focus) (root : RocElem) : Except PanicKind Focus :=
  match self.focused with
  | none =>
    if root.is_focusable then
      .ok { focused := some root, focused_ancestors := [] }
    else
      match next_focusable_sibling root none none with
      | .error k => .error k
      | .ok (some (new_ptr, new_ancestors)) =>
        .ok { focused := new_ptr, focused_ancestors := new_ancestors }
      | .ok none => .ok self
  | some focused => advanceLoop focused self.focused_ancestors.reverse

/-- `n` successive calls to `advance` with the same root, propagating panics. -/
def advanceN : Nat → Focus → RocElem → Except PanicKind Focus
  | 0, st, _ => .ok st
  | n + 1, st, root =>
    match st.advance root with
    | .error k => .error k
    | .ok st1 => advanceN n st1 root

mutual

/-- `true` when the element and every one of its descendants is non-focusable
(the hypothesis of the spec's "nothing focusable anywhere" properties). -/
def noFocusable : RocElem → Bool
  | .text _ => true
  | .button _ => false
  | .row children => noFocusableList children
  | .col children => noFocusableList children

/-- `noFocusable` over a child sequence. -/
def noFocusableList : List RocElem → Bool
  | [] => true
  | child :: rest => noFocusable child && noFocusableList rest

end

mutual

/-- With no index restriction, `next_focusable_sibling` cannot panic and never
finds anything: the leaf arms return `None` outright and the container arm only
recurses, so the recursion bottoms out at leaves with `None` everywhere. -/
theorem next_focusable_sibling_none_index (elem : RocElem) (ancestor : Option RocElem) :
    next_focusable_sibling elem ancestor none = .ok none := by
  cases elem with
  | text s => simp [next_focusable_sibling]
  | button c => simp [next_focusable_sibling]
  | row children =>
    rw [next_focusable_sibling]
    exact searchChildren_ok_none children ancestor
  | col children =>
    rw [next_focusable_sibling]
    exact searchChildren_ok_none children ancestor
termination_by sizeOf elem

/-- The child loop of `next_focusable_sibling` always completes with `None`. -/
theorem searchChildren_ok_none (children : List RocElem) (ancestor : Option RocElem) :
    searchChildren children ancestor = .ok none := by
  cases children with
  | nil => simp [searchChildren]
  | cons child rest =>
    rw [searchChildren, next_focusable_sibling_none_index child ancestor]
    exact searchChildren_ok_none rest ancestor
termination_by sizeOf children

end

/-- Every call to `next_focusable_sibling` either returns `None` or panics on
an out-of-range slice; no call produces a found result. -/
theorem next_focusable_sibling_cases (elem : RocElem) (ancestor : Option RocElem)
    (opt_index : Option Nat) :
    next_focusable_sibling elem ancestor opt_index = .ok none ∨
      next_focusable_sibling elem ancestor opt_index = .error .sliceOOB := by
  cases opt_index with
  | none => exact Or.inl (next_focusable_sibling_none_index elem ancestor)
  | some focus_index =>
    cases elem with
    | text s => exact Or.inl (by simp [next_focusable_sibling])
    | button c => exact Or.inl (by simp [next_focusable_sibling])
    | row children =>
      rw [next_focusable_sibling]
      by_cases h : focus_index ≤ children.length
      · simp only [h, if_true]
        exact Or.inl (searchChildren_ok_none _ ancestor)
      · rw [if_neg h]
        exact Or.inr rfl
    | col children =>
      rw [next_focusable_sibling]
      by_cases h : focus_index ≤ children.length
      · simp only [h, if_true]
        exact Or.inl (searchChildren_ok_none _ ancestor)
      · rw [if_neg h]
        exact Or.inr rfl

/-- The ancestor-popping loop of `advance` either pops the whole vector and
returns with the focus unchanged and an empty ancestor vector, or panics
(null ancestor pointer, or out-of-range slice); it never changes the focus. -/
theorem advanceLoop_cases (focused : RocElem) (l : List (Ptr × Nat)) :
    advanceLoop focused l = .ok { focused := some focused, focused_ancestors := [] } ∨
      advanceLoop focused l = .error .nullDeref ∨
      advanceLoop focused l = .error .sliceOOB := by
  induction l with
  | nil => exact Or.inl rfl
  | cons entry rest ih =>
    obtain ⟨ancestor_ptr, index⟩ := entry
    cases ancestor_ptr with
    | none => exact Or.inr (Or.inl rfl)
    | some ancestor =>
      rcases next_focusable_sibling_cases focused (some ancestor) (some index) with h | h
      · simpa [advanceLoop, h] using ih
      · simp [advanceLoop, h]

/-- A tree with nothing focusable has a non-focusable root. -/
theorem noFocusable_root_not_focusable (elem : RocElem) (h : noFocusable elem = true) :
    elem.is_focusable = false := by
  cases elem with
  | text s => rfl
  | button c => simp [noFocusable] at h
  | row children => rfl
  | col children => rfl

/-- From the no-focus state, `advance` on a non-focusable root is a no-op:
the root is not taken, and the descendant search never finds anything. -/
theorem advance_nofocus_not_focusable (st : Focus) (root : RocElem)
    (hf : st.focused = none) (hr : root.is_focusable = false) :
    st.advance root = .ok st := by
  rw [Focus.advance, hf]
  simp [hr, next_focusable_sibling_none_index]

/-- From the no-focus state with a non-focusable root, any number of `advance`
calls is a no-op. -/
theorem advanceN_nofocus_not_focusable (n : Nat) (st : Focus) (root : RocElem)
    (hf : st.focused = none) (hr : root.is_focusable = false) :
    advanceN n st root = .ok st := by
  induction n with
  | zero => rfl
  | succ m ih =>
    rw [advanceN, advance_nofocus_not_focusable st root hf hr]
    exact ih


/-- Claim C10: on a freshly constructed tracker, before any `advance`,
`focused_elem` returns the null pointer (absent), independent of any tree. -/
theorem default_focused_elem_none : Focus.default.focused_elem = none := rfl

/-- Claim C6: calling `advance` when no element is focused and the root is
focusable sets the focused element to the root and the ancestor path to
empty. -/
theorem advance_nofocus_focusable_root (st : Focus) (root : RocElem)
    (hf : st.focused = none) (hr : root.is_focusable = true) :
    st.advance root = .ok { focused := some root, focused_ancestors := [] } := by
  rw [Focus.advance, hf]
  simp [hr]

/-- Claim C6, witness: a fresh tracker advanced on a button root focuses the
button root with an empty path. -/
theorem advance_nofocus_focusable_root_witness :
    Focus.default.advance (.button (.text "")) =
      .ok { focused := some (.button (.text "")), focused_ancestors := [] } :=
  advance_nofocus_focusable_root Focus.default (.button (.text "")) rfl rfl

/-- Claim C7: when the root and all of its descendants are non-focusable, any
number of `advance` calls starting from the fresh (no-focus) tracker leaves the
tracker exactly in the fresh state: focus stays absent and nothing changes. -/
theorem advanceN_noFocusable_stays_default (n : Nat) (root : RocElem)
    (h : noFocusable root = true) :
    advanceN n Focus.default root = .ok Focus.default :=
  advanceN_nofocus_not_focusable n Focus.default root rfl
    (noFocusable_root_not_focusable root h)

/-- Claim C7, witness: two advances on the bare text root keep the tracker in
its default no-focus state. -/
theorem advanceN_noFocusable_stays_default_witness :
    noFocusable (.text "") = true ∧
      advanceN 2 Focus.default (.text "") = .ok Focus.default :=
  ⟨by simp [noFocusable],
    advanceN_noFocusable_stays_default 2 (.text "") (by simp [noFocusable])⟩

/-- Claim C2 (amended): every call to `next_focusable_sibling` either returns
no match (`None`) or panics on the out-of-range slice
`children[0..focus_index]`; in particular no call, for any element, ancestor
context and index context, ever produces a found result. -/
theorem next_focusable_sibling_never_finds (elem : RocElem) (ancestor : Option RocElem)
    (opt_index : Option Nat) :
    next_focusable_sibling elem ancestor opt_index = .ok none ∨
      next_focusable_sibling elem ancestor opt_index = .error .sliceOOB :=
  next_focusable_sibling_cases elem ancestor opt_index

/-- Claim C2, counterexample to the claim as stated: with index context `1` on
a childless row, the call does not return `None` — the slice `children[0..1]`
of an empty child vector panics. -/
theorem next_focusable_sibling_oob_counterexample :
    next_focusable_sibling (.row []) none (some 1) = .error .sliceOOB := by
  simp [next_focusable_sibling]

/-- A state with focus on a button and one recorded ancestor entry (used for
claims about `advance` with a focus present). -/
def pathOneState : Focus :=
  { focused := some (.button (.text "")), focused_ancestors := [(some (.row []), 0)] }

/-- `pathOneState` after its single ancestor entry has been popped. -/
def drainedButtonState : Focus :=
  { focused := some (.button (.text "")), focused_ancestors := [] }

/-- Claim C3, counterexample to the claim as stated: with a focus present, one
recorded ancestor and nothing focusable anywhere, `advance` returns with the
focused reference unchanged but the ancestor path DRAINED — the popped entry is
not restored, so the state is not entirely unchanged (path length 1 before the
call, 0 after it). -/
theorem advance_path_not_preserved_counterexample :
    Focus.advance pathOneState (.row []) = .ok drainedButtonState ∧
      pathOneState.focused_ancestors.length = 1 ∧
      drainedButtonState.focused_ancestors.length = 0 := by
  refine ⟨?_, rfl, rfl⟩
  simp [pathOneState, drainedButtonState, Focus.advance, advanceLoop,
    next_focusable_sibling]

/-- Claim C3 (amended): if `advance` is called with a focus present and the
call returns (no next focusable element is ever found), the focused reference
is unchanged but the ancestor path is left empty — every entry has been
popped; the state is entirely unchanged only when the path was already
empty. -/
theorem advance_focus_present_drains_path (st : Focus) (root : RocElem)
    (f : RocElem) (st1 : Focus) (hf : st.focused = some f)
    (h : st.advance root = .ok st1) :
    st1.focused = st.focused ∧ st1.focused_ancestors = [] := by
  rw [Focus.advance, hf] at h
  replace h : advanceLoop f st.focused_ancestors.reverse = .ok st1 := h
  rcases advanceLoop_cases f st.focused_ancestors.reverse with hc | hc | hc
  · rw [hc] at h
    injection h with h2
    subst h2
    exact ⟨hf.symm, rfl⟩
  · rw [hc] at h
    exact Except.noConfusion h
  · rw [hc] at h
    exact Except.noConfusion h

/-- Claim C3, witness: advancing with focus on a button and one recorded
ancestor returns with the same focused reference and an emptied path. -/
theorem advance_focus_present_drains_path_witness :
    drainedButtonState.focused = pathOneState.focused ∧
      drainedButtonState.focused_ancestors = [] :=
  advance_focus_present_drains_path pathOneState (.row []) (.button (.text ""))
    drainedButtonState rfl
    (by simp [pathOneState, drainedButtonState, Focus.advance, advanceLoop,
      next_focusable_sibling])

/-- Claim C9: `advance` never removes focus — whenever the focused reference is
non-null before a returning call, it is non-null after it. -/
theorem advance_preserves_focus_present (st : Focus) (root : RocElem) (st1 : Focus)
    (hf : st.focused.isSome = true) (h : st.advance root = .ok st1) :
    st1.focused.isSome = true := by
  cases hfo : st.focused with
  | none => rw [hfo] at hf; exact absurd hf (by simp)
  | some f =>
    rw [Focus.advance, hfo] at h
    replace h : advanceLoop f st.focused_ancestors.reverse = .ok st1 := h
    rcases advanceLoop_cases f st.focused_ancestors.reverse with hc | hc | hc
    · rw [hc] at h
      injection h with h2
      subst h2
      rfl
    · rw [hc] at h
      exact Except.noConfusion h
    · rw [hc] at h
      exact Except.noConfusion h

/-- A state with focus on a bare text element and an empty ancestor path. -/
def textFocusedState : Focus :=
  { focused := some (.text ""), focused_ancestors := [] }

/-- Claim C9, witness: with focus on a text element and an empty path, the
returning call keeps the focused reference non-null. -/
theorem advance_preserves_focus_present_witness :
    textFocusedState.focused.isSome = true :=
  advance_preserves_focus_present textFocusedState (.text "") textFocusedState
    rfl rfl

/-- Claim C8: the `debug_assert!(!new_ptr.is_null())` in `advance` never fires
on any input: every call to `advance` either returns normally or panics for one
of the two other reasons (out-of-range slice, null ancestor pointer) — never
with the assertion failure, because `next_focusable_sibling` never produces a
found result at all. -/
theorem advance_debug_assert_never_fires (st : Focus) (root : RocElem) :
    (st.advance root).isOk = true ∨ st.advance root = .error .sliceOOB ∨
      st.advance root = .error .nullDeref := by
  obtain ⟨fo, anc⟩ := st
  cases fo with
  | none =>
    by_cases hr : root.is_focusable
    · left
      simp [Focus.advance, hr, Except.isOk, Except.toBool]
    · left
      simp [Focus.advance, hr, next_focusable_sibling_none_index, Except.isOk,
        Except.toBool]
  | some f =>
    have hdef : Focus.advance ⟨some f, anc⟩ root = advanceLoop f anc.reverse := rfl
    rw [hdef]
    rcases advanceLoop_cases f anc.reverse with hc | hc | hc
    · left
      rw [hc]
      rfl
    · right; right
      exact hc
    · right; left
      exact hc

/-- The spec's Scenario C tree: a row holding a text and two buttons. -/
def scenarioC : RocElem :=
  .row [.text "", .button (.text ""), .button (.text "")]

/-- Claim C1 is contradicted by the code: on the Scenario C tree
`row[text "", button, button]`, all three successive advances from a fresh
tracker leave it in the default no-focus state — no button is ever focused,
because `next_focusable_sibling` returns `None` for every input it is given
here. -/
theorem scenarioC_all_advances_leave_focus_absent :
    advanceN 3 Focus.default scenarioC = .ok Focus.default :=
  advanceN_nofocus_not_focusable 3 Focus.default scenarioC rfl rfl

/-- A row holding two distinct buttons (focusable children at indices 0
and 1). -/
def twoButtonRow : RocElem :=
  .row [.button (.text "a"), .button (.text "b")]

/-- Focus on the first button of `twoButtonRow`, with the row recorded as the
ancestor at child index 0. -/
def firstButtonFocused : Focus :=
  { focused := some (.button (.text "a")), focused_ancestors := [(some twoButtonRow, 0)] }

/-- Claim C4 is contradicted by the code: with focus on the first of two
buttons in a row and the ancestor recorded at index 0, `advance` does not move
focus to the second button — the focused reference stays on the first button
and the path is merely drained (the search is invoked on the focused leaf
itself, whose `Button` arm returns `None` immediately, and the slice it would
use is `children[0..index]`, before — not after — the recorded index). -/
theorem advance_from_sibling_does_not_move :
    Focus.advance firstButtonFocused twoButtonRow =
      .ok { focused := some (.button (.text "a")), focused_ancestors := [] } := by
  simp [firstButtonFocused, twoButtonRow, Focus.advance, advanceLoop,
    next_focusable_sibling]

/-- A row whose only focusable element is a single button child (the root
itself is not focusable). -/
def singleButtonRow : RocElem :=
  .row [.button (.text "")]

/-- Claim C5 is contradicted by the code: for the tree `row[button]`, whose
only focusable element is the button (not the root), every number of advances
from the fresh tracker leaves the tracker in the default no-focus state — the
traversal never converges to the unique focusable element. -/
theorem advanceN_single_focusable_not_root_stays_default (n : Nat) :
    advanceN n Focus.default singleButtonRow = .ok Focus.default :=
  advanceN_nofocus_not_focusable n Focus.default singleButtonRow rfl rfl
